import Mathlib

/-!
Verification development for the deals-spotter basket-comparison backend
(src/services/basketComparison.ts, src/routes/deals.ts, src/models/Deal.ts).

Modelling conventions:
* JavaScript numbers are modelled as `ℚ`; timestamps (`Date.now()`,
  `scrapedAt.getTime()`) as `ℤ` milliseconds.
* The IEEE-754 `NaN` that arises from the keyword-coverage ratio `0/0`
  (empty keyword list) poisons every later arithmetic step of `scoreMatch`
  and makes `score > 20` false; it is modelled by `Option ℚ` with `none`
  standing for `NaN`.  All other divisions by zero in the code occur only
  inside comparisons whose outcome (no bonus) coincides with the `ℚ`
  convention `x / 0 = 0`, so plain `ℚ` division is used there.
* JavaScript truthiness tests on numbers (`!x` true for `0`) and strings
  (`!s` true for `""`) are modelled explicitly where the code performs them.
* The MongoDB / Fuse.js collaborators are an oracle record `Env`; fallible
  queries return `Except String _` so that thrown query errors are visible.
* `Array.prototype.sort` sorts in place; `generateCacheKey` therefore
  returns both the key and the sorted array, and the route model threads
  the sorted array onward (state-passing embedding of the mutation).
  For a total preorder comparator a stable sort has a unique result, so
  `List.insertionSort` computes exactly the list the JS engine produces.
-/

/-- Match-source labels, from the union type in `findBestMatch` /
`MatchResult.matchSource`. -/
inductive MatchSource where
  | text_search
  | regex
  | fuzzy
  | user_correction
deriving DecidableEq, Repr

/-- A package size `{ amount, unit }` (the `unit` field of a `Deal`, and the
return shape of `convertToBaseUnit`). -/
structure DealUnit where
  amount : ℚ
  unit : String
deriving DecidableEq, Repr

/-- The fields of the `Deal` interface (src/models/Deal.ts) that the
basket-comparison service reads. -/
structure Deal where
  id : String
  name : String
  store : String
  currentPrice : ℚ
  originalPrice : Option ℚ
  scrapedAt : ℤ
  isActive : Bool
  unit : Option DealUnit
  unitPrice : Option ℚ
deriving DecidableEq, Repr

/-- The `UserCorrection` interface (src/models/Deal.ts). -/
structure UserCorrection where
  originalQuery : String
  correctedDealId : String
  correctedDealName : String
  confidence : ℚ
  timestamp : ℤ
deriving DecidableEq, Repr

/-- The `NormalizedItem` interface (src/models/Deal.ts). -/
structure NormalizedItem where
  originalText : String
  cleanText : String
  quantity : Option ℚ
  unit : Option String
  keywords : List String
deriving DecidableEq, Repr

/-- An entry of `MatchResult.alternatives`. -/
structure AltMatch where
  dealId : String
  name : String
  price : ℚ
  confidence : ℚ
deriving DecidableEq, Repr

/-- The `MatchResult` interface (src/models/Deal.ts). -/
structure MatchResult where
  inputText : String
  requestedQuantity : Option ℚ
  requestedUnit : Option String
  matchedDealId : Option String
  matchedName : Option String
  unitPrice : Option ℚ
  totalPrice : Option ℚ
  packageSize : Option DealUnit
  quantityMultiplier : Option ℤ
  confidence : ℚ
  matchSource : MatchSource
  alternatives : Option (List AltMatch)
deriving DecidableEq, Repr

/-- ASCII case folding for one character (model of the effect of
JavaScript `toLowerCase` on the ASCII names handled here). -/
def charToLower (c : Char) : Char :=
  if 65 ≤ c.toNat ∧ c.toNat ≤ 90 then Char.ofNat (c.toNat + 32) else c

/-- JavaScript `s.toLowerCase()` (ASCII model, evaluable in proofs). -/
def jsToLower (s : String) : String := String.mk (s.data.map charToLower)

/-- `normalizeUnit` (basketComparison.ts lines 58–69): long-form unit names
map to canonical short forms, everything else is lower-cased unchanged. -/
def normalizeUnit (unit : String) : String :=
  let u := jsToLower unit
  if u = "gram" then "g"
  else if u = "kilogram" then "kg"
  else if u = "litre" then "l"
  else if u = "liter" then "l"
  else if u = "piece" then "unit"
  else if u = "pc" then "unit"
  else if u = "pcs" then "unit"
  else u

/-- `convertToBaseUnit` (basketComparison.ts lines 72–81): g→kg and ml→l
divide by 1000, every other unit passes through unchanged. -/
def convertToBaseUnit (amount : ℚ) (unit : String) : DealUnit :=
  if unit = "g" then ⟨amount / 1000, "kg"⟩
  else if unit = "ml" then ⟨amount / 1000, "l"⟩
  else ⟨amount, unit⟩

/-- Return shape of `calculateQuantityRequirements`. -/
structure QtyReq where
  multiplier : ℤ
  canFulfill : Bool
deriving DecidableEq, Repr

/-- `calculateQuantityRequirements` (basketComparison.ts lines 84–107).
The JS guard `!requestedQty || !requestedUnit || !dealUnit` is a truthiness
test: it also fires on quantity `0` and on the empty-string unit. -/
def calculateQuantityRequirements (requestedQty : Option ℚ)
    (requestedUnit : Option String) (dealUnit : Option DealUnit) : QtyReq :=
  match requestedQty, requestedUnit, dealUnit with
  | some q, some u, some du =>
    if q = 0 ∨ u = "" then { multiplier := 1, canFulfill := true }
    else
      let normalizedRequested := convertToBaseUnit q u
      let normalizedDeal := convertToBaseUnit du.amount du.unit
      if normalizedRequested.unit ≠ normalizedDeal.unit then
        { multiplier := 1, canFulfill := false }
      else
        { multiplier := ⌈normalizedRequested.amount / normalizedDeal.amount⌉,
          canFulfill := true }
  | _, _, _ => { multiplier := 1, canFulfill := true }

/-- Fallback branch of `calculateUnitPrice` (lines 113–118): divide the
current price by the base-unit amount when a package unit is known. -/
def calculateUnitPriceFallback (deal : Deal) : ℚ :=
  match deal.unit with
  | some u => deal.currentPrice / (convertToBaseUnit u.amount u.unit).amount
  | none => deal.currentPrice

/-- `calculateUnitPrice` (basketComparison.ts lines 110–119).  The JS guard
`if (deal.unitPrice)` is falsy on `0`, so a stored unit price of `0` falls
through to the computed fallback. -/
def calculateUnitPrice (deal : Deal) : ℚ :=
  match deal.unitPrice with
  | some up => if up = 0 then calculateUnitPriceFallback deal else up
  | none => calculateUnitPriceFallback deal

/-- `pat` occurs as a contiguous sublist of `l` (char-level model of
JavaScript `String.prototype.includes`). -/
def strIncludesAux (pat : List Char) : List Char → Bool
  | [] => pat.isPrefixOf []
  | c :: t => pat.isPrefixOf (c :: t) || strIncludesAux pat t

/-- JavaScript `s.includes(pat)` on strings. -/
def strIncludes (s pat : String) : Bool :=
  strIncludesAux pat.data s.data

/-- Base score by match source (`scoreMatch` lines 180–195).  The union type
of `matchSource` makes the `default: 60` branch unreachable. -/
def baseScore (matchSource : MatchSource) : ℚ :=
  match matchSource with
  | .user_correction => 95
  | .text_search => 60
  | .regex => 50
  | .fuzzy => 40

/-- Keyword-coverage ratio (`scoreMatch` lines 198–201); meaningful only for
a non-empty keyword list (otherwise the JS computation is `0/0 = NaN`). -/
def keywordRatio (deal : Deal) (item : NormalizedItem) : ℚ :=
  ((item.keywords.filter (fun k => strIncludes (jsToLower deal.name) k)).length : ℚ)
    / (item.keywords.length : ℚ)

/-- Unit-compatibility bonus (`scoreMatch` lines 207–220).  The JS guard
`normalizedItem.unit && deal.unit` is falsy on the empty-string unit. -/
def unitBonus (deal : Deal) (item : NormalizedItem) : ℚ :=
  match item.unit, deal.unit with
  | some iu, some du =>
    if iu = "" then 0
    else
      let normalizedDealUnit := normalizeUnit du.unit
      if iu = normalizedDealUnit then 15
      else if (iu = "kg" ∧ normalizedDealUnit = "g")
          ∨ (iu = "g" ∧ normalizedDealUnit = "kg")
          ∨ (iu = "l" ∧ normalizedDealUnit = "ml")
          ∨ (iu = "ml" ∧ normalizedDealUnit = "l") then 8
      else 0
  | _, _ => 0

/-- Exact-quantity bonus (`scoreMatch` lines 223–232).  `normalizedItem.unit
|| 'unit'` defaults a missing or empty unit; the ratio comparisons fail both
in JS (ratio `±∞` / `NaN`) and here (`x / 0 = 0`) when the package amount is
zero, so no bonus is granted in either model. -/
def quantityBonus (deal : Deal) (item : NormalizedItem) : ℚ :=
  match item.quantity, deal.unit with
  | some q, some du =>
    if q = 0 then 0
    else
      let iu := match item.unit with
        | some u => if u = "" then "unit" else u
        | none => "unit"
      let normalizedRequested := convertToBaseUnit q iu
      let normalizedDeal := convertToBaseUnit du.amount du.unit
      if normalizedRequested.unit = normalizedDeal.unit then
        let ratio := normalizedRequested.amount / normalizedDeal.amount
        if ratio = 1 then 10
        else if ratio ≤ 2 ∧ (1 : ℚ) / 2 ≤ ratio then 5
        else 0
      else 0
  | _, _ => 0

/-- Recency bonus (`scoreMatch` lines 235–237): scraped within a day +8,
within three days +4. -/
def recencyBonus (now : ℤ) (deal : Deal) : ℚ :=
  let daysSinceScraped := ((now : ℚ) - (deal.scrapedAt : ℚ)) / (1000 * 60 * 60 * 24)
  if daysSinceScraped < 1 then 8
  else if daysSinceScraped < 3 then 4
  else 0

/-- Promotion bonus (`scoreMatch` lines 240–242); the JS guard
`deal.originalPrice && ...` is falsy on `0`. -/
def promotionBonus (deal : Deal) : ℚ :=
  match deal.originalPrice with
  | some op => if op ≠ 0 ∧ deal.currentPrice < op then 5 else 0
  | none => 0

/-- The numeric value of `scoreMatch` (lines 175–245) when the keyword list
is non-empty: base score scaled by keyword coverage, plus the four additive
bonuses, capped at 100. -/
def scoreMatchNum (now : ℤ) (deal : Deal) (item : NormalizedItem)
    (matchSource : MatchSource) : ℚ :=
  min (baseScore matchSource * (1 / 2 + 1 / 2 * keywordRatio deal item)
        + unitBonus deal item + quantityBonus deal item
        + recencyBonus now deal + promotionBonus deal) 100

/-- `scoreMatch` (basketComparison.ts lines 175–245).  With an empty keyword
list the JS coverage ratio is `0/0 = NaN`, which propagates through the
multiplication, the bonus additions and `Math.min`, so the returned score is
`NaN` — modelled as `none`. -/
def scoreMatch (now : ℤ) (deal : Deal) (item : NormalizedItem)
    (matchSource : MatchSource) : Option ℚ :=
  if item.keywords.length = 0 then none
  else some (scoreMatchNum now deal item matchSource)

/-- Oracle for the MongoDB collaborators and the Fuse.js library.  Fallible
queries return `Except String _`; an `error` models a rejected promise.
`fuseSearch` is the pure Fuse.js search over an explicit candidate pool,
returning `(item, score)` pairs. -/
structure Env where
  findCorrection : List String → Except String (Option UserCorrection)
  findDealById : String → Except String (Option Deal)
  textSearch : List String → Except String (List Deal)
  regexSearch : List String → Except String (List Deal)
  sampleRecent : Except String (List Deal)
  fuseSearch : List Deal → String → List (Deal × ℚ)
  now : ℤ

/-- `fuzzySearchDeals` (basketComparison.ts lines 122–145): draw the recent
sample, run Fuse over the joined keywords, keep results with score < 0.6,
take the first 10. -/
def fuzzySearchDeals (env : Env) (normalizedItem : NormalizedItem) :
    Except String (List Deal) := do
  let candidates ← env.sampleRecent
  let searchTerm := String.intercalate " " normalizedItem.keywords
  let results := env.fuseSearch candidates searchTerm
  pure (((results.filter (fun r => r.2 < 6 / 10)).map Prod.fst).take 10)

/-- `checkUserCorrections` (basketComparison.ts lines 148–172): latest
correction whose original query matches the keywords; accepted only when its
confidence exceeds 80 and its deal id resolves.  The whole body sits in a
`try`/`catch` that turns any query error into `null`. -/
def checkUserCorrections (env : Env) (normalizedItem : NormalizedItem) :
    Option Deal :=
  match env.findCorrection normalizedItem.keywords with
  | .error _ => none
  | .ok none => none
  | .ok (some correction) =>
    if correction.confidence > 80 then
      match env.findDealById correction.correctedDealId with
      | .error _ => none
      | .ok none => none
      | .ok (some deal) => some deal
    else none

/-- Merge step shared by the regex and fuzzy stages (lines 291–294 and
306–309): append only those results whose id is not already present. -/
def mergeNew (candidates newResults : List Deal) : List Deal :=
  let existingIds := candidates.map (fun c => c.id)
  candidates ++ newResults.filter (fun c => ¬ existingIds.contains c.id)

/-- Stage 2 of `findBestMatch` (lines 274–300): regex fallback, run whenever
fewer than 5 candidates are present; relabels `matchSource` to `regex`
exactly when the merged set has the same size as the regex result set. -/
def regexStage (env : Env) (item : NormalizedItem)
    (candidates : List Deal) (matchSource : MatchSource) :
    Except String (List Deal × MatchSource) :=
  if candidates.length < 5 then do
    let regexResults ← env.regexSearch item.keywords
    if regexResults.length > 0 then
      let merged := mergeNew candidates regexResults
      pure (merged,
        if merged.length = regexResults.length then MatchSource.regex
        else matchSource)
    else pure (candidates, matchSource)
  else pure (candidates, matchSource)

/-- Stage 3 of `findBestMatch` (lines 302–315): fuzzy fallback, run whenever
fewer than 3 candidates are present. -/
def fuzzyStage (env : Env) (item : NormalizedItem)
    (candidates : List Deal) (matchSource : MatchSource) :
    Except String (List Deal × MatchSource) :=
  if candidates.length < 3 then do
    let fuzzyCandidates ← fuzzySearchDeals env item
    if fuzzyCandidates.length > 0 then
      let merged := mergeNew candidates fuzzyCandidates
      pure (merged,
        if matchSource = MatchSource.text_search
            ∧ merged.length = fuzzyCandidates.length then MatchSource.fuzzy
        else matchSource)
    else pure (candidates, matchSource)
  else pure (candidates, matchSource)

/-- Stages 0–3 of `findBestMatch` (lines 248–315): correction check, text
search (only when no correction candidate), regex fallback, fuzzy fallback. -/
def gatherCandidates (env : Env) (item : NormalizedItem) :
    Except String (List Deal × MatchSource) := do
  let correctedDeal := checkUserCorrections env item
  let (candidates0, source0) :=
    match correctedDeal with
    | some deal => ([deal], MatchSource.user_correction)
    | none => ([], MatchSource.text_search)
  let candidates1 ←
    if candidates0.length = 0 then env.textSearch item.keywords
    else pure candidates0
  let (candidates2, source2) ← regexStage env item candidates1 source0
  fuzzyStage env item candidates2 source2

/-- Scoring, filtering and ranking (lines 318–323): score each candidate,
drop scores ≤ 20 (a `NaN` score also fails the `> 20` test), sort by score
descending (stable, so ties keep discovery order).  After the filter every
score is numeric, so the scores are unwrapped for ranking. -/
def rankCandidates (now : ℤ) (item : NormalizedItem)
    (matchSource : MatchSource) (candidates : List Deal) :
    List (Deal × ℚ) :=
  let scored := candidates.map (fun deal => (deal, scoreMatch now deal item matchSource))
  let filtered := scored.filter (fun p =>
    match p.2 with
    | some s => decide (20 < s)
    | none => false)
  let numbered := filtered.map (fun p => (p.1, p.2.getD 0))
  List.insertionSort (fun a b => b.2 ≤ a.2) numbered

/-- The zero-confidence result (lines 325–333): no matched id, confidence 0,
`matchSource` hard-coded to `text_search`. -/
def emptyResult (item : NormalizedItem) : MatchResult :=
  { inputText := item.originalText
    requestedQuantity := item.quantity
    requestedUnit := item.unit
    matchedDealId := none
    matchedName := none
    unitPrice := none
    totalPrice := none
    packageSize := none
    quantityMultiplier := none
    confidence := 0
    matchSource := MatchSource.text_search
    alternatives := none }

/-- Result assembly for the ranked list (lines 325–378): empty list yields
the zero-confidence result, otherwise the head is the best match and the
next three survivors become alternatives. -/
def assembleResult (item : NormalizedItem)
    (matchSource : MatchSource) (ranked : List (Deal × ℚ)) : MatchResult :=
  match ranked with
  | [] => emptyResult item
  | bestMatch :: rest =>
    let quantityReqs :=
      calculateQuantityRequirements item.quantity item.unit bestMatch.1.unit
    let unitPrice := calculateUnitPrice bestMatch.1
    let totalPrice := bestMatch.1.currentPrice * (quantityReqs.multiplier : ℚ)
    let alternatives := (rest.take 3).map (fun p =>
      { dealId := p.1.id
        name := p.1.name
        price := p.1.currentPrice
        confidence := p.2 : AltMatch })
    { inputText := item.originalText
      requestedQuantity := item.quantity
      requestedUnit := item.unit
      matchedDealId := some bestMatch.1.id
      matchedName := some bestMatch.1.name
      unitPrice := some unitPrice
      totalPrice := some totalPrice
      packageSize := bestMatch.1.unit
      quantityMultiplier := some quantityReqs.multiplier
      confidence := bestMatch.2
      matchSource := matchSource
      alternatives :=
        if alternatives.length > 0 then some alternatives else none }

/-- `findBestMatch` (basketComparison.ts lines 248–379): staged candidate
gathering, scoring/ranking, then result assembly (`env.now` is
`Date.now()`). -/
def findBestMatch (env : Env) (item : NormalizedItem) :
    Except String MatchResult := do
  let (candidates, matchSource) ← gatherCandidates env item
  pure (assembleResult item matchSource
    (rankCandidates env.now item matchSource candidates))

/-- The result of sorting a list of strings with JavaScript's default
`Array.prototype.sort` (code-unit comparison; a stable sort over a total
order has this unique sorted result). -/
def jsSortStrings (l : List String) : List String :=
  List.insertionSort (fun a b => a ≤ b) l

/-- `generateCacheKey` (basketComparison.ts lines 382–384).
`items.sort()` sorts the caller's array in place and returns the same
array, so the embedding returns both the key and the mutated array. -/
def generateCacheKey (items : List String) : String × List String :=
  let sorted := jsSortStrings items
  ("basket:" ++ String.intercalate "|" sorted, sorted)

/-- Per-item flow of POST /compare-basket (src/routes/deals.ts): derive the
cache key — which sorts `items` in place — then normalize and match each
element of that same (now sorted) array; `itemDetails` is the resulting
`matches` list.  The per-item pipeline (`normalizeInput` then
`findBestMatch`) is abstracted as `matchItem`. -/
def compareBasketProcess (matchItem : String → MatchResult)
    (items : List String) : String × List MatchResult :=
  let keyAndItems := generateCacheKey items
  (keyAndItems.1, keyAndItems.2.map matchItem)

/-! Small evaluation lemmas for the `Except` monad, used throughout. -/

@[simp] theorem except_bind_ok {ε α β : Type} (a : α) (f : α → Except ε β) :
    (Except.ok a >>= f : Except ε β) = f a := rfl

@[simp] theorem except_bind_error {ε α β : Type} (e : ε) (f : α → Except ε β) :
    (Except.error e >>= f : Except ε β) = Except.error e := rfl

@[simp] theorem except_map_ok {ε α β : Type} (a : α) (f : α → β) :
    (f <$> Except.ok a : Except ε β) = Except.ok (f a) := rfl

@[simp] theorem except_map_error {ε α β : Type} (e : ε) (f : α → β) :
    (f <$> Except.error e : Except ε β) = Except.error e := rfl

@[simp] theorem except_pure {ε α : Type} (a : α) :
    (pure a : Except ε α) = Except.ok a := rfl

/-- Binding `findBestMatch` through a successful candidate gathering. -/
theorem findBestMatch_of_gather {env : Env} {item : NormalizedItem}
    {c : List Deal} {s : MatchSource}
    (h : gatherCandidates env item = .ok (c, s)) :
    findBestMatch env item =
      .ok (assembleResult item s (rankCandidates env.now item s c)) := by
  simp only [findBestMatch, h, except_bind_ok, except_pure]

/-- Binding `findBestMatch` through a failed candidate gathering. -/
theorem findBestMatch_of_gather_error {env : Env} {item : NormalizedItem}
    {e : String} (h : gatherCandidates env item = .error e) :
    findBestMatch env item = .error e := by
  simp only [findBestMatch, h, except_bind_error]

/-- C7.  `convertToBaseUnit` maps g→kg and ml→l dividing by 1000, passes
every other unit through unchanged, and in particular sends 500 g to 0.5 kg
and 250 ml to 0.25 l. -/
theorem c7_convertToBaseUnit (a : ℚ) (u : String) :
    convertToBaseUnit a "g" = ⟨a / 1000, "kg"⟩
    ∧ convertToBaseUnit a "ml" = ⟨a / 1000, "l"⟩
    ∧ (u ≠ "g" → u ≠ "ml" → convertToBaseUnit a u = ⟨a, u⟩)
    ∧ convertToBaseUnit 500 "g" = ⟨1 / 2, "kg"⟩
    ∧ convertToBaseUnit 250 "ml" = ⟨1 / 4, "l"⟩ := by
  refine ⟨by simp [convertToBaseUnit], by simp [convertToBaseUnit], ?_, ?_, ?_⟩
  · intro hg hml
    simp [convertToBaseUnit, hg, hml]
  · simp [convertToBaseUnit]
    norm_num
  · simp [convertToBaseUnit]
    norm_num

/-- C7 witness: instance at `a = 3`, `u = "kg"`. -/
theorem c7_convertToBaseUnit_witness :
    convertToBaseUnit 3 "kg" = ⟨3, "kg"⟩ :=
  (c7_convertToBaseUnit 3 "kg").2.2.1 (by simp) (by simp)

/-- C6 counterexample: a present-but-zero requested quantity against an
incompatible package unit.  The two sides convert to different base units
(kg vs l), so the claim requires `canFulfill = false`, but the JS truthiness
guard `!requestedQty` treats the quantity `0` as missing and the function
returns `multiplier = 1, canFulfill = true`. -/
theorem c6_counterexample :
    (convertToBaseUnit 0 "g").unit ≠ (convertToBaseUnit 1 "l").unit
    ∧ calculateQuantityRequirements (some 0) (some "g") (some ⟨1, "l"⟩)
        = ⟨1, true⟩ := by
  constructor
  · simp [convertToBaseUnit]
  · simp [calculateQuantityRequirements]

/-- C6 (amended).  `calculateQuantityRequirements` returns multiplier 1 and
`canFulfill = true` whenever an input is missing — where, by JS falsiness, a
quantity of 0 and an empty-string unit also count as missing; for present,
non-falsy inputs it returns multiplier 1 and `canFulfill = false` when the
base units differ, and otherwise `⌈requestedBase / dealBase⌉` with
`canFulfill = true`; in particular 2 kg against a 500 g package gives
multiplier 4. -/
theorem c6_quantity_requirements (q : ℚ) (u : String) (du : DealUnit)
    (oq : Option ℚ) (ou : Option String) (od : Option DealUnit) :
    (oq = none ∨ ou = none ∨ od = none →
      calculateQuantityRequirements oq ou od = ⟨1, true⟩)
    ∧ (q ≠ 0 → u ≠ "" →
        (convertToBaseUnit q u).unit ≠ (convertToBaseUnit du.amount du.unit).unit →
        calculateQuantityRequirements (some q) (some u) (some du) = ⟨1, false⟩)
    ∧ (q ≠ 0 → u ≠ "" →
        (convertToBaseUnit q u).unit = (convertToBaseUnit du.amount du.unit).unit →
        calculateQuantityRequirements (some q) (some u) (some du) =
          ⟨⌈(convertToBaseUnit q u).amount / (convertToBaseUnit du.amount du.unit).amount⌉,
            true⟩)
    ∧ calculateQuantityRequirements (some 2) (some "kg") (some ⟨500, "g"⟩)
        = ⟨4, true⟩ := by
  refine ⟨?_, ?_, ?_, ?_⟩
  · rintro (rfl | rfl | rfl) <;> simp [calculateQuantityRequirements]
  · intro hq hu hdiff
    simp only [calculateQuantityRequirements]
    rw [if_neg (by simp [hq, hu]), if_pos hdiff]
  · intro hq hu hsame
    simp only [calculateQuantityRequirements]
    rw [if_neg (by simp [hq, hu]), if_neg (by simp [hsame])]
  · simp [calculateQuantityRequirements, convertToBaseUnit]
    norm_num

/-- C6 witness: instances of all three hypothesis-bearing clauses. -/
theorem c6_quantity_requirements_witness :
    calculateQuantityRequirements none (some "kg") (some ⟨1, "kg"⟩) = ⟨1, true⟩
    ∧ calculateQuantityRequirements (some 1) (some "kg") (some ⟨1, "l"⟩) = ⟨1, false⟩
    ∧ calculateQuantityRequirements (some 2) (some "kg") (some ⟨500, "g"⟩) = ⟨4, true⟩ := by
  refine ⟨(c6_quantity_requirements 1 "kg" ⟨1, "kg"⟩ none (some "kg") (some ⟨1, "kg"⟩)).1
      (Or.inl rfl),
    (c6_quantity_requirements 1 "kg" ⟨1, "l"⟩ none none none).2.1
      (by norm_num) (by simp) (by simp [convertToBaseUnit]), ?_⟩
  have h := (c6_quantity_requirements 2 "kg" ⟨500, "g"⟩ none none none).2.2.2
  exact h

/-- C4 counterexample: the cache key is not case-independent — changing the
letter case of an item string changes the key, since `generateCacheKey`
joins the raw strings without case folding. -/
theorem c4_counterexample :
    (generateCacheKey ["Milk"]).1 ≠ (generateCacheKey ["milk"]).1 := by
  simp [generateCacheKey, jsSortStrings, List.insertionSort, List.orderedInsert,
    String.intercalate, String.intercalate.go]

/-- C4 (amended).  The cache key is order-independent — any permutation of
the basket's item strings yields the same key (in particular
`["a","b"]` and `["b","a"]`) — but it is case-sensitive, not
case-independent. -/
theorem c4_cache_key_perm_invariant (l₁ l₂ : List String) (h : l₁.Perm l₂) :
    (generateCacheKey l₁).1 = (generateCacheKey l₂).1 := by
  have hsort : jsSortStrings l₁ = jsSortStrings l₂ := by
    haveI : IsAntisymm String (fun a b => a ≤ b) := ⟨fun _ _ => le_antisymm⟩
    exact List.eq_of_perm_of_sorted
      (((List.perm_insertionSort _ l₁).trans h).trans
        (List.perm_insertionSort _ l₂).symm)
      (List.sorted_insertionSort _ l₁) (List.sorted_insertionSort _ l₂)
  simp [generateCacheKey, hsort]

/-- C4 witness: `["a","b"]` and `["b","a"]` yield the same key. -/
theorem c4_cache_key_perm_invariant_witness :
    (generateCacheKey ["a", "b"]).1 = (generateCacheKey ["b", "a"]).1 :=
  c4_cache_key_perm_invariant ["a", "b"] ["b", "a"] (List.Perm.swap "b" "a" [])

/-- C10.  `generateCacheKey` sorts the caller's array in place, so after the
compare-basket route derives the cache key the items are processed in sorted
order: the per-item matching (`matchItem`, abstracting `normalizeInput`
followed by `findBestMatch`) is mapped over the sorted array, and
`itemDetails` comes back in that sorted order — for the basket
`["b","a"]` the details are those of `"a"` then `"b"`, not submission
order. -/
theorem c10_cache_key_sorts_items_in_place
    (matchItem : String → MatchResult) (items : List String) :
    (compareBasketProcess matchItem items).2 = (jsSortStrings items).map matchItem
    ∧ (generateCacheKey items).2 = jsSortStrings items
    ∧ (compareBasketProcess matchItem ["b", "a"]).2 = [matchItem "a", matchItem "b"] := by
  refine ⟨rfl, rfl, ?_⟩
  have hsort : jsSortStrings ["b", "a"] = ["a", "b"] := by
    simp [jsSortStrings, List.insertionSort, List.orderedInsert]
    decide
  simp [compareBasketProcess, generateCacheKey, hsort]

/-- The keyword-coverage ratio is non-negative. -/
theorem keywordRatio_nonneg (deal : Deal) (item : NormalizedItem) :
    0 ≤ keywordRatio deal item := by
  unfold keywordRatio
  positivity

/-- The keyword-coverage ratio is at most 1. -/
theorem keywordRatio_le_one (deal : Deal) (item : NormalizedItem) :
    keywordRatio deal item ≤ 1 := by
  unfold keywordRatio
  rcases Nat.eq_zero_or_pos item.keywords.length with h | h
  · simp [h]
  · rw [div_le_one (by exact_mod_cast h)]
    exact_mod_cast List.length_filter_le _ _

/-- The unit-compatibility bonus lies in [0, 15]. -/
theorem unitBonus_bounds (deal : Deal) (item : NormalizedItem) :
    0 ≤ unitBonus deal item ∧ unitBonus deal item ≤ 15 := by
  unfold unitBonus
  rcases item.unit with _ | iu <;> rcases deal.unit with _ | du <;>
    refine ⟨?_, ?_⟩ <;> dsimp only <;> (try split_ifs) <;> norm_num

/-- The exact-quantity bonus lies in [0, 10]. -/
theorem quantityBonus_bounds (deal : Deal) (item : NormalizedItem) :
    0 ≤ quantityBonus deal item ∧ quantityBonus deal item ≤ 10 := by
  unfold quantityBonus
  rcases item.quantity with _ | q <;> rcases deal.unit with _ | du <;>
    refine ⟨?_, ?_⟩ <;> dsimp only <;> (try split_ifs) <;> norm_num

/-- The recency bonus lies in [0, 8]. -/
theorem recencyBonus_bounds (now : ℤ) (deal : Deal) :
    0 ≤ recencyBonus now deal ∧ recencyBonus now deal ≤ 8 := by
  unfold recencyBonus
  refine ⟨?_, ?_⟩ <;> dsimp only <;> split_ifs <;> norm_num

/-- The promotion bonus lies in [0, 5]. -/
theorem promotionBonus_bounds (deal : Deal) :
    0 ≤ promotionBonus deal ∧ promotionBonus deal ≤ 5 := by
  unfold promotionBonus
  rcases deal.originalPrice with _ | op <;> refine ⟨?_, ?_⟩ <;> dsimp only <;>
    (try split_ifs) <;> norm_num

/-- Total of the four additive bonuses of `scoreMatch`. -/
def totalBonus (now : ℤ) (deal : Deal) (item : NormalizedItem) : ℚ :=
  unitBonus deal item + quantityBonus deal item
    + recencyBonus now deal + promotionBonus deal

/-- The total bonus lies in [0, 38]. -/
theorem totalBonus_bounds (now : ℤ) (deal : Deal) (item : NormalizedItem) :
    0 ≤ totalBonus now deal item ∧ totalBonus now deal item ≤ 38 := by
  have h1 := unitBonus_bounds deal item
  have h2 := quantityBonus_bounds deal item
  have h3 := recencyBonus_bounds now deal
  have h4 := promotionBonus_bounds deal
  unfold totalBonus
  constructor <;> linarith [h1.1, h1.2, h2.1, h2.2, h3.1, h3.2, h4.1, h4.2]

/-- `scoreMatchNum` written with the grouped bonus total. -/
theorem scoreMatchNum_eq (now : ℤ) (deal : Deal) (item : NormalizedItem)
    (src : MatchSource) :
    scoreMatchNum now deal item src =
      min (baseScore src * (1 / 2 + 1 / 2 * keywordRatio deal item)
        + totalBonus now deal item) 100 := by
  unfold scoreMatchNum totalBonus
  ring_nf

/-- C5.  For the same deal (hence identical attributes and identical — full —
keyword coverage), scoring as `user_correction` (base 95) yields a strictly
higher score than scoring as `text_search` (base 60): the correction score
stays ≥ 95 while the text score caps out at 98. -/
theorem c5_user_correction_outranks_text_search
    (now : ℤ) (deal : Deal) (item : NormalizedItem) (s95 s60 : ℚ)
    (hne : item.keywords ≠ [])
    (hcov : ∀ k ∈ item.keywords, strIncludes (jsToLower deal.name) k = true)
    (h95 : scoreMatch now deal item MatchSource.user_correction = some s95)
    (h60 : scoreMatch now deal item MatchSource.text_search = some s60) :
    s60 < s95 := by
  have hlen : item.keywords.length ≠ 0 := by
    simpa using fun h => hne (List.length_eq_zero.mp h)
  have hratio : keywordRatio deal item = 1 := by
    unfold keywordRatio
    rw [List.filter_eq_self.mpr hcov, div_self (by exact_mod_cast hlen)]
  rw [scoreMatch, if_neg hlen] at h95 h60
  have hb := totalBonus_bounds now deal item
  have e95 : s95 = min (95 + totalBonus now deal item) 100 := by
    have h := scoreMatchNum_eq now deal item MatchSource.user_correction
    rw [hratio] at h
    have h2 : scoreMatchNum now deal item MatchSource.user_correction
        = min (95 + totalBonus now deal item) 100 := by
      rw [h]
      norm_num [baseScore]
    exact (Option.some_inj.mp h95).symm.trans h2
  have e60 : s60 = min (60 + totalBonus now deal item) 100 := by
    have h := scoreMatchNum_eq now deal item MatchSource.text_search
    rw [hratio] at h
    have h2 : scoreMatchNum now deal item MatchSource.text_search
        = min (60 + totalBonus now deal item) 100 := by
      rw [h]
      norm_num [baseScore]
    exact (Option.some_inj.mp h60).symm.trans h2
  have h60v : s60 = 60 + totalBonus now deal item := by
    rw [e60, min_eq_left (by linarith [hb.2])]
  rcases le_or_lt (95 + totalBonus now deal item) 100 with hc | hc
  · rw [e95, min_eq_left hc, h60v]
    linarith
  · rw [e95, min_eq_right (le_of_lt hc), h60v]
    linarith [hb.2]

/-- Concrete item for the C5 witness. -/
def itemC5 : NormalizedItem :=
  { originalText := "milk", cleanText := "milk", quantity := none, unit := none,
    keywords := ["milk"] }

/-- Concrete deal for the C5 witness. -/
def dealC5 : Deal :=
  { id := "d1", name := "milk", store := "naivas", currentPrice := 100,
    originalPrice := none, scrapedAt := 0, isActive := true, unit := none,
    unitPrice := none }

/-- C5 witness: full coverage of `["milk"]` against a deal named "milk";
the correction-scored value is 100, the text-scored value 68. -/
theorem c5_user_correction_outranks_text_search_witness : (68 : ℚ) < 100 :=
  c5_user_correction_outranks_text_search 0 dealC5 itemC5 100 68
    (by simp [itemC5])
    (by
      intro k hk
      simp [itemC5] at hk
      subst hk
      rfl)
    (by
      simp [scoreMatch, scoreMatchNum, baseScore, keywordRatio, strIncludes,
        strIncludesAux, unitBonus, quantityBonus, recencyBonus, promotionBonus,
        jsToLower, charToLower, itemC5, dealC5, List.isPrefixOf, min_def]
      norm_num)
    (by
      simp [scoreMatch, scoreMatchNum, baseScore, keywordRatio, strIncludes,
        strIncludesAux, unitBonus, quantityBonus, recencyBonus, promotionBonus,
        jsToLower, charToLower, itemC5, dealC5, List.isPrefixOf, min_def]
      norm_num)

/-- Any numeric score produced by `scoreMatch` is at most 100 (the final
`Math.min(score, 100)` cap). -/
theorem scoreMatch_le_100 {now : ℤ} {deal : Deal} {item : NormalizedItem}
    {src : MatchSource} {s : ℚ} (h : scoreMatch now deal item src = some s) :
    s ≤ 100 := by
  unfold scoreMatch at h
  split_ifs at h
  rw [Option.some_inj] at h
  rw [← h]
  unfold scoreMatchNum
  exact min_le_right _ _

/-- Every ranked candidate has a score in (20, 100]: the filter discards
scores ≤ 20 (and `NaN` scores), and `scoreMatch` caps at 100. -/
theorem mem_rankCandidates {now : ℤ} {item : NormalizedItem}
    {src : MatchSource} {cands : List Deal} {p : Deal × ℚ}
    (hp : p ∈ rankCandidates now item src cands) :
    20 < p.2 ∧ p.2 ≤ 100 := by
  unfold rankCandidates at hp
  rw [(List.perm_insertionSort _ _).mem_iff] at hp
  rcases List.mem_map.mp hp with ⟨q, hqmem, hq⟩
  rcases List.mem_filter.mp hqmem with ⟨hqscored, hqpred⟩
  rcases List.mem_map.mp hqscored with ⟨d, _, hd⟩
  rcases hq2 : q.2 with _ | s
  · rw [hq2] at hqpred
    simp at hqpred
  · rw [hq2] at hqpred
    simp only [decide_eq_true_eq] at hqpred
    have hscore : scoreMatch now d item src = some s := by
      have : q.2 = scoreMatch now d item src := by rw [← hd]
      rw [← this, hq2]
    refine ⟨?_, ?_⟩
    · rw [← hq, hq2]
      simpa using hqpred
    · rw [← hq, hq2]
      simpa using scoreMatch_le_100 hscore

/-- C8.  Every numeric score returned by `scoreMatch` is at most 100
regardless of bonus stacking, and the confidence of every `MatchResult`
returned by `findBestMatch` lies in [0, 100]. -/
theorem c8_confidence_bounds :
    (∀ (now : ℤ) (deal : Deal) (item : NormalizedItem) (src : MatchSource) (s : ℚ),
      scoreMatch now deal item src = some s → s ≤ 100)
    ∧ (∀ (env : Env) (item : NormalizedItem) (r : MatchResult),
        findBestMatch env item = .ok r → 0 ≤ r.confidence ∧ r.confidence ≤ 100) := by
  constructor
  · intro now deal item src s h
    exact scoreMatch_le_100 h
  · intro env item r h
    rcases hg : gatherCandidates env item with e | p
    · rw [findBestMatch_of_gather_error hg] at h
      exact absurd h (by simp)
    · rcases p with ⟨c, s⟩
      rw [findBestMatch_of_gather hg] at h
      rw [Except.ok.injEq] at h
      rcases hr : rankCandidates env.now item s c with _ | ⟨best, rest⟩
      · rw [hr] at h
        rw [← h]
        simp [assembleResult, emptyResult]
      · rw [hr] at h
        have hbest : best ∈ rankCandidates env.now item s c := by
          rw [hr]
          exact List.mem_cons_self _ _
        have hb := mem_rankCandidates hbest
        rw [← h]
        simp only [assembleResult]
        exact ⟨by linarith [hb.1], hb.2⟩

/-- Environment with an empty catalog, for witnesses. -/
def envEmpty : Env :=
  { findCorrection := fun _ => .ok none
    findDealById := fun _ => .ok none
    textSearch := fun _ => .ok []
    regexSearch := fun _ => .ok []
    sampleRecent := .ok []
    fuseSearch := fun _ _ => []
    now := 0 }

/-- Concrete item used by several witnesses. -/
def itemRice : NormalizedItem :=
  { originalText := "rice", cleanText := "rice", quantity := none, unit := none,
    keywords := ["rice"] }

/-- C8 witness: both conjuncts applied at concrete inputs — the concrete
text-search score of `itemRice` against an identically named deal, and the
result of `findBestMatch` over the empty catalog. -/
theorem c8_confidence_bounds_witness :
    (68 : ℚ) ≤ 100
    ∧ (0 ≤ (emptyResult itemRice).confidence
        ∧ (emptyResult itemRice).confidence ≤ 100) := by
  constructor
  · refine c8_confidence_bounds.1 0 dealC5 itemC5 MatchSource.text_search 68 ?_
    simp [scoreMatch, scoreMatchNum, baseScore, keywordRatio, strIncludes,
      strIncludesAux, unitBonus, quantityBonus, recencyBonus, promotionBonus,
      jsToLower, charToLower, itemC5, dealC5, List.isPrefixOf, min_def]
    norm_num
  · exact c8_confidence_bounds.2 envEmpty itemRice (emptyResult itemRice) rfl

/-- C9.  When no candidate survives scoring — including the case of zero
candidates across all stages — `findBestMatch` returns the zero-confidence
result: confidence 0, no matched deal id, and `matchSource` labelled
`text_search`. -/
theorem c9_no_survivor_zero_confidence (env : Env) (item : NormalizedItem)
    (c : List Deal) (s : MatchSource)
    (hg : gatherCandidates env item = .ok (c, s))
    (hr : rankCandidates env.now item s c = []) :
    findBestMatch env item = .ok (emptyResult item)
    ∧ (emptyResult item).confidence = 0
    ∧ (emptyResult item).matchedDealId = none
    ∧ (emptyResult item).matchSource = MatchSource.text_search := by
  refine ⟨?_, rfl, rfl, rfl⟩
  rw [findBestMatch_of_gather hg, hr]
  rfl

/-- C9 witness: the empty catalog yields zero candidates in every stage, and
the zero-confidence result comes back. -/
theorem c9_no_survivor_zero_confidence_witness :
    findBestMatch envEmpty itemRice = .ok (emptyResult itemRice)
    ∧ (emptyResult itemRice).confidence = 0 :=
  have h := c9_no_survivor_zero_confidence envEmpty itemRice []
    MatchSource.text_search rfl rfl
  ⟨h.1, h.2.1⟩

/-- A correction with confidence above 80 whose deal id resolves makes
`checkUserCorrections` return that deal. -/
theorem checkUserCorrections_hit {env : Env} {item : NormalizedItem}
    {corr : UserCorrection} {d : Deal}
    (h1 : env.findCorrection item.keywords = .ok (some corr))
    (h2 : corr.confidence > 80)
    (h3 : env.findDealById corr.correctedDealId = .ok (some d)) :
    checkUserCorrections env item = some d := by
  simp [checkUserCorrections, h1, h3, h2]

/-- A correction-scored candidate always clears the score-20 filter: its
base 95 is scaled by at least 1/2 and the bonuses are non-negative. -/
theorem scoreMatchNum_user_correction_gt_20 (now : ℤ) (d : Deal)
    (item : NormalizedItem) :
    20 < scoreMatchNum now d item MatchSource.user_correction := by
  rw [scoreMatchNum_eq]
  have hr := keywordRatio_nonneg d item
  have hb := (totalBonus_bounds now d item).1
  rw [lt_min_iff]
  refine ⟨?_, by norm_num⟩
  simp only [baseScore]
  nlinarith

/-- Ranking a single candidate whose score clears the filter. -/
theorem rankCandidates_singleton (now : ℤ) (item : NormalizedItem)
    (src : MatchSource) (d : Deal) (hk : item.keywords.length ≠ 0)
    (hgt : 20 < scoreMatchNum now d item src) :
    rankCandidates now item src [d] = [(d, scoreMatchNum now d item src)] := by
  unfold rankCandidates
  simp [scoreMatch, hk, hgt, List.insertionSort, List.orderedInsert]

/-- With a correction hit and empty regex/fuzzy query results, candidate
gathering produces exactly the corrected deal, labelled `user_correction`
(the text-search stage is not consulted at all). -/
theorem gatherCandidates_correction_only {env : Env} {item : NormalizedItem}
    {corr : UserCorrection} {d : Deal}
    (h1 : env.findCorrection item.keywords = .ok (some corr))
    (h2 : corr.confidence > 80)
    (h3 : env.findDealById corr.correctedDealId = .ok (some d))
    (h4 : env.regexSearch item.keywords = .ok [])
    (h5 : env.sampleRecent = .ok [])
    (h6 : env.fuseSearch [] (String.intercalate " " item.keywords) = []) :
    gatherCandidates env item = .ok ([d], MatchSource.user_correction) := by
  have hc := checkUserCorrections_hit h1 h2 h3
  simp [gatherCandidates, hc, regexStage, fuzzyStage, fuzzySearchDeals, h4, h5, h6]

/-- C1 (amended).  A user correction with confidence > 80 whose catalog
entry resolves does make that entry the initial sole candidate with
`matchSource = user_correction` and the text-search stage is skipped
entirely; but — contrary to the claim — the regex stage still runs
(1 < 5) and the fuzzy stage still runs while candidates < 3, and they may
add candidates (and even relabel `matchSource`).  When those fallback
queries return nothing, the corrected entry is indeed the sole, winning
candidate labelled `user_correction`. -/
theorem c1_correction_pipeline (env : Env) (item : NormalizedItem)
    (corr : UserCorrection) (d : Deal)
    (h1 : env.findCorrection item.keywords = .ok (some corr))
    (h2 : corr.confidence > 80)
    (h3 : env.findDealById corr.correctedDealId = .ok (some d))
    (hk : item.keywords ≠ [])
    (h4 : env.regexSearch item.keywords = .ok [])
    (h5 : env.sampleRecent = .ok [])
    (h6 : env.fuseSearch [] (String.intercalate " " item.keywords) = []) :
    (∀ ts, findBestMatch { env with textSearch := ts } item = findBestMatch env item)
    ∧ ∃ r, findBestMatch env item = .ok r
        ∧ r.matchSource = MatchSource.user_correction
        ∧ r.matchedDealId = some d.id
        ∧ r.alternatives = none := by
  have hg : gatherCandidates env item = .ok ([d], MatchSource.user_correction) :=
    gatherCandidates_correction_only h1 h2 h3 h4 h5 h6
  have hg2 : ∀ ts, gatherCandidates { env with textSearch := ts } item
      = .ok ([d], MatchSource.user_correction) := fun ts =>
    gatherCandidates_correction_only h1 h2 h3 h4 h5 h6
  have hlen : item.keywords.length ≠ 0 := by
    simpa using fun h => hk (List.length_eq_zero.mp h)
  have hrank := rankCandidates_singleton env.now item
    MatchSource.user_correction d hlen
    (scoreMatchNum_user_correction_gt_20 env.now d item)
  constructor
  · intro ts
    rw [findBestMatch_of_gather (hg2 ts), findBestMatch_of_gather hg]
  · refine ⟨_, findBestMatch_of_gather hg, ?_⟩
    rw [hrank]
    simp [assembleResult]

/-- A second deal that the regex stage returns alongside the corrected one. -/
def dealC1b : Deal :=
  { id := "d2", name := "fresh milk", store := "naivas", currentPrice := 90,
    originalPrice := none, scrapedAt := 0, isActive := true, unit := none,
    unitPrice := none }

/-- A user correction pointing at `dealC5` with confidence 90. -/
def corrC1 : UserCorrection :=
  { originalQuery := "milk", correctedDealId := "d1",
    correctedDealName := "milk", confidence := 90, timestamp := 0 }

/-- Environment for the C1 counterexample: the correction lookup hits with
confidence 90 and resolves to `dealC5`, while the regex query returns both
`dealC5` and `dealC1b`. -/
def envC1 : Env :=
  { findCorrection := fun _ => .ok (some corrC1)
    findDealById := fun _ => .ok (some dealC5)
    textSearch := fun _ => .ok []
    regexSearch := fun _ => .ok [dealC5, dealC1b]
    sampleRecent := .ok []
    fuseSearch := fun _ _ => []
    now := 0 }

/-- Score of the corrected deal under the `regex` label in `envC1`. -/
theorem scoreC1a : scoreMatch 0 dealC5 itemC5 MatchSource.regex = some 58 := by
  simp [scoreMatch, scoreMatchNum, baseScore, keywordRatio, strIncludes,
    strIncludesAux, unitBonus, quantityBonus, recencyBonus, promotionBonus,
    jsToLower, charToLower, itemC5, dealC5, List.isPrefixOf, min_def]
  norm_num

/-- Score of the regex-added deal under the `regex` label in `envC1`. -/
theorem scoreC1b : scoreMatch 0 dealC1b itemC5 MatchSource.regex = some 58 := by
  simp [scoreMatch, scoreMatchNum, baseScore, keywordRatio, strIncludes,
    strIncludesAux, unitBonus, quantityBonus, recencyBonus, promotionBonus,
    jsToLower, charToLower, itemC5, dealC1b, List.isPrefixOf, min_def]
  norm_num

/-- Ranking of the two C1 candidates (tie at 58, discovery order kept). -/
theorem rankC1 : rankCandidates 0 itemC5 MatchSource.regex [dealC5, dealC1b]
    = [(dealC5, 58), (dealC1b, 58)] := by
  simp only [rankCandidates, List.map_cons, List.map_nil, scoreC1a, scoreC1b]
  norm_num [List.filter_cons, List.filter_nil, List.insertionSort, List.orderedInsert]

/-- C1 counterexample: in `envC1` the correction lookup finds a correction
with confidence 90 > 80 whose entry resolves, yet the regex stage still
runs, re-adds the corrected entry together with a second deal, and — because
the merged set has the same size as the regex result set — the reported
`matchSource` is `regex`, not `user_correction`, and an alternative
candidate is present (the corrected entry was not the sole candidate). -/
theorem c1_counterexample :
    envC1.findCorrection itemC5.keywords = .ok (some corrC1)
    ∧ corrC1.confidence > 80
    ∧ envC1.findDealById corrC1.correctedDealId = .ok (some dealC5)
    ∧ (findBestMatch envC1 itemC5).map (fun r => r.matchSource)
        = .ok MatchSource.regex
    ∧ (findBestMatch envC1 itemC5).map (fun r => r.alternatives)
        = .ok (some [⟨dealC1b.id, dealC1b.name, dealC1b.currentPrice, 58⟩]) := by
  have hgather : gatherCandidates envC1 itemC5
      = .ok ([dealC5, dealC1b], MatchSource.regex) := rfl
  have hfb := findBestMatch_of_gather hgather
  have hnow : envC1.now = 0 := rfl
  rw [hnow, rankC1] at hfb
  refine ⟨rfl, by norm_num [corrC1], rfl, ?_, ?_⟩
  · rw [hfb]
    simp [assembleResult, Except.map]
  · rw [hfb]
    simp [assembleResult, Except.map, dealC1b]

/-- C1 witness for the amended theorem: a correction-only environment. -/
def envC1w : Env :=
  { findCorrection := fun _ => .ok (some corrC1)
    findDealById := fun _ => .ok (some dealC5)
    textSearch := fun _ => .ok []
    regexSearch := fun _ => .ok []
    sampleRecent := .ok []
    fuseSearch := fun _ _ => []
    now := 0 }

/-- C1 witness: with empty regex and fuzzy results, the corrected entry is
the sole winning candidate, labelled `user_correction`, independently of the
text-search oracle. -/
theorem c1_correction_pipeline_witness :
    (∀ ts, findBestMatch { envC1w with textSearch := ts } itemC5
      = findBestMatch envC1w itemC5)
    ∧ ∃ r, findBestMatch envC1w itemC5 = .ok r
        ∧ r.matchSource = MatchSource.user_correction
        ∧ r.matchedDealId = some dealC5.id
        ∧ r.alternatives = none :=
  c1_correction_pipeline envC1w itemC5 corrC1 dealC5 rfl (by norm_num [corrC1])
    rfl (by simp [itemC5]) rfl rfl rfl

/-- `findBestMatch` only looks at the environment through the correction
check, the three fallback queries, the Fuse search and the clock. -/
theorem findBestMatch_congr_corrections {env env' : Env} {item : NormalizedItem}
    (h : checkUserCorrections env item = checkUserCorrections env' item)
    (ht : env.textSearch = env'.textSearch)
    (hr : env.regexSearch = env'.regexSearch)
    (hs : env.sampleRecent = env'.sampleRecent)
    (hf : env.fuseSearch = env'.fuseSearch)
    (hn : env.now = env'.now) :
    findBestMatch env item = findBestMatch env' item := by
  unfold findBestMatch gatherCandidates regexStage fuzzyStage fuzzySearchDeals
    rankCandidates
  rw [h, ht, hr, hs, hf, hn]

/-- C2 (amended).  Only the correction stage catches its query errors: a
failing correction lookup — or a failing deal-id resolution inside it — is
swallowed and the pipeline continues exactly as if no correction existed.
(Failures of the text, regex, and fuzzy queries, by contrast, propagate;
see the counterexample.) -/
theorem c2_correction_stage_catches (env : Env) (item : NormalizedItem)
    (corr : UserCorrection) (e e' : String) :
    (env.findCorrection item.keywords = .error e →
      findBestMatch env item
        = findBestMatch { env with findCorrection := fun _ => .ok none } item)
    ∧ (env.findCorrection item.keywords = .ok (some corr) →
      corr.confidence > 80 →
      env.findDealById corr.correctedDealId = .error e' →
      findBestMatch env item
        = findBestMatch { env with findDealById := fun _ => .ok none } item) := by
  constructor
  · intro h
    refine findBestMatch_congr_corrections ?_ rfl rfl rfl rfl rfl
    rw [show checkUserCorrections env item = none by simp [checkUserCorrections, h]]
    simp [checkUserCorrections]
  · intro h1 h2 h3
    refine findBestMatch_congr_corrections ?_ rfl rfl rfl rfl rfl
    rw [show checkUserCorrections env item = none by
      simp [checkUserCorrections, h1, h2, h3]]
    simp [checkUserCorrections, h1, h2]

/-- Environment whose text-search query fails. -/
def envC2 : Env :=
  { findCorrection := fun _ => .ok none
    findDealById := fun _ => .ok none
    textSearch := fun _ => .error "text search failed"
    regexSearch := fun _ => .ok []
    sampleRecent := .ok []
    fuseSearch := fun _ _ => []
    now := 0 }

/-- Environment whose regex query fails. -/
def envC2r : Env :=
  { envC2 with textSearch := fun _ => .ok []
               regexSearch := fun _ => .error "regex query failed" }

/-- Environment whose fuzzy-stage sample query fails. -/
def envC2f : Env :=
  { envC2 with textSearch := fun _ => .ok []
               sampleRecent := .error "sample query failed" }

/-- C2 counterexample: a failure of the text-search, regex, or fuzzy-sample
query is *not* caught — `findBestMatch` propagates it to its caller instead
of proceeding to the next stage. -/
theorem c2_counterexample :
    findBestMatch envC2 itemRice = .error "text search failed"
    ∧ findBestMatch envC2r itemRice = .error "regex query failed"
    ∧ findBestMatch envC2f itemRice = .error "sample query failed" :=
  ⟨rfl, rfl, rfl⟩

/-- Environment whose correction lookup fails. -/
def envC2c : Env :=
  { envC2 with textSearch := fun _ => .ok []
               findCorrection := fun _ => .error "correction lookup failed" }

/-- C2 witness: a failing correction lookup is caught and the pipeline
behaves exactly as with no correction at all. -/
theorem c2_correction_stage_catches_witness :
    findBestMatch envC2c itemRice
      = findBestMatch { envC2c with findCorrection := fun _ => .ok none } itemRice :=
  (c2_correction_stage_catches envC2c itemRice corrC1 "correction lookup failed" "x").1
    rfl

/-- With an empty keyword list every candidate scores `NaN` (`none`), so no
candidate survives the score filter, whatever the stages returned. -/
theorem rankCandidates_empty_keywords {now : ℤ} {item : NormalizedItem}
    {src : MatchSource} (cands : List Deal) (hk : item.keywords = []) :
    rankCandidates now item src cands = [] := by
  unfold rankCandidates
  have hfil : (cands.map (fun deal => (deal, scoreMatch now deal item src))).filter
      (fun p => match p.2 with | some s => decide (20 < s) | none => false) = [] := by
    rw [List.filter_eq_nil_iff]
    intro a ha
    rcases List.mem_map.mp ha with ⟨d, _, rfl⟩
    simp [scoreMatch, hk]
  dsimp only
  rw [hfil]
  rfl

/-- The regex stage succeeds whenever the regex query does. -/
theorem regexStage_ok (env : Env) (item : NormalizedItem) {ds : List Deal}
    (c : List Deal) (s : MatchSource)
    (h : env.regexSearch item.keywords = .ok ds) :
    ∃ p, regexStage env item c s = .ok p := by
  unfold regexStage
  split_ifs with hlt
  · rw [h, except_bind_ok]
    split_ifs <;> exact ⟨_, rfl⟩
  · exact ⟨_, rfl⟩

/-- The fuzzy stage succeeds whenever the sample query does. -/
theorem fuzzyStage_ok {env : Env} {item : NormalizedItem} {ds : List Deal}
    (c : List Deal) (s : MatchSource)
    (h : env.sampleRecent = .ok ds) :
    ∃ p, fuzzyStage env item c s = .ok p := by
  unfold fuzzyStage fuzzySearchDeals
  split_ifs with hlt
  · rw [h, except_bind_ok, except_pure, except_bind_ok]
    split_ifs <;> exact ⟨_, rfl⟩
  · exact ⟨_, rfl⟩

/-- Candidate gathering succeeds whenever the text, regex and sample queries
do (correction-stage failures are caught internally). -/
theorem gatherCandidates_ok {env : Env} {item : NormalizedItem}
    {ds1 ds2 ds3 : List Deal}
    (h1 : env.textSearch item.keywords = .ok ds1)
    (h2 : env.regexSearch item.keywords = .ok ds2)
    (h3 : env.sampleRecent = .ok ds3) :
    ∃ p, gatherCandidates env item = .ok p := by
  unfold gatherCandidates
  rcases hcc : checkUserCorrections env item with _ | d
  · dsimp only
    rw [List.length_nil, if_pos rfl, h1, except_bind_ok]
    obtain ⟨pr, hpr⟩ := regexStage_ok env item ds1 MatchSource.text_search h2
    rcases pr with ⟨c2, s2⟩
    rw [hpr, except_bind_ok]
    exact fuzzyStage_ok c2 s2 h3
  · dsimp only
    rw [if_neg (by simp), except_pure, except_bind_ok]
    obtain ⟨pr, hpr⟩ := regexStage_ok env item [d] MatchSource.user_correction h2
    rcases pr with ⟨c2, s2⟩
    rw [hpr, except_bind_ok]
    exact fuzzyStage_ok c2 s2 h3

/-- C3 (amended).  An item whose keyword set is empty after normalization is
*not* short-circuited: the pipeline still queries every stage (see the
counterexample, where a failing text query surfaces).  But since every
candidate's keyword-coverage ratio is `0/0 = NaN`, every score is `NaN` and
fails the `> 20` filter, so — whenever the stage queries themselves
succeed — `findBestMatch` does return the zero-confidence result with no
matched id. -/
theorem c3_empty_keywords_zero_confidence (env : Env) (item : NormalizedItem)
    (ds1 ds2 ds3 : List Deal)
    (hk : item.keywords = [])
    (h1 : env.textSearch item.keywords = .ok ds1)
    (h2 : env.regexSearch item.keywords = .ok ds2)
    (h3 : env.sampleRecent = .ok ds3) :
    findBestMatch env item = .ok (emptyResult item)
    ∧ (emptyResult item).confidence = 0
    ∧ (emptyResult item).matchedDealId = none := by
  refine ⟨?_, rfl, rfl⟩
  obtain ⟨⟨c, s⟩, hp⟩ := gatherCandidates_ok h1 h2 h3
  rw [findBestMatch_of_gather hp, rankCandidates_empty_keywords c hk]
  rfl

/-- An input that normalizes to an empty keyword set (every token is a
stopword or too short). -/
def itemC3 : NormalizedItem :=
  { originalText := "a of to", cleanText := "a of to", quantity := none,
    unit := none, keywords := [] }

/-- C3 counterexample: even with an empty keyword set the candidate stages
are queried — the text-search query is issued and its failure propagates,
so no query-free short-circuit exists. -/
theorem c3_counterexample :
    itemC3.keywords = [] ∧ findBestMatch envC2 itemC3 = .error "text search failed" :=
  ⟨rfl, rfl⟩

/-- C3 witness: over the empty catalog, the empty-keyword item yields the
zero-confidence result. -/
theorem c3_empty_keywords_zero_confidence_witness :
    findBestMatch envEmpty itemC3 = .ok (emptyResult itemC3)
    ∧ (emptyResult itemC3).confidence = 0 :=
  have h := c3_empty_keywords_zero_confidence envEmpty itemC3 [] [] [] rfl rfl rfl rfl
  ⟨h.1, h.2.1⟩
